import Mathlib

/-!
# rssfs: a shallow embedding of the name sanitizer, the leaf materializer,
# the node tree and the filesystem adapter

Go strings are byte sequences; they are modelled as lists of byte values.
A Go panic is modelled as the error side of `Except Panic`.
-/

namespace Rssfs

/-! ## Go strings -/

/-- A Go string: an immutable sequence of bytes (each value is below 256). -/
abbrev GoString := List Nat

/-- The bytes of an ASCII literal. -/
def str (s : String) : GoString := s.data.map Char.toNat

/-- Go's `<` on strings: bytewise lexicographic order. -/
def stringLess : GoString → GoString → Bool
  | [], [] => false
  | [], _ :: _ => true
  | _ :: _, [] => false
  | a :: s, b :: t => if a < b then true else if b < a then false else stringLess s t

/-- Go library function `strings.ReplaceAll(s, old, new)` for a one-byte `old`, the only way the
source calls it: every occurrence of the byte is replaced by `new`. -/
def ReplaceAll (s : GoString) (old : Nat) (new : GoString) : GoString :=
  s.flatMap (fun b => if b = old then new else [b])

/-- Go library constant `utf8.RuneSelf`: bytes below it are single-byte runes. -/
def RuneSelf : Nat := 0x80

/-- Go library constant `utf8.RuneError`, the replacement rune U+FFFD. -/
def RuneError : Nat := 0xFFFD

/-- Go library function `utf8.DecodeRuneInString`: the first rune of `s` and its width in bytes;
an invalid or short encoding is `(RuneError, 1)`, the empty string `(RuneError, 0)`. -/
def DecodeRuneInString (s : GoString) : Nat × Nat :=
  let cont (b : Nat) : Bool := 0x80 ≤ b && b ≤ 0xBF
  match s with
  | [] => (RuneError, 0)
  | s0 :: rest =>
    if s0 < RuneSelf then (s0, 1)
    else if 0xC2 ≤ s0 && s0 ≤ 0xDF then
      match rest with
      | s1 :: _ => if cont s1 then ((s0 % 32) * 64 + s1 % 64, 2) else (RuneError, 1)
      | _ => (RuneError, 1)
    else if 0xE0 ≤ s0 && s0 ≤ 0xEF then
      let lo := if s0 = 0xE0 then 0xA0 else 0x80
      let hi := if s0 = 0xED then 0x9F else 0xBF
      match rest with
      | s1 :: s2 :: _ =>
        if lo ≤ s1 && s1 ≤ hi then
          if cont s2 then ((s0 % 16) * 4096 + (s1 % 64) * 64 + s2 % 64, 3) else (RuneError, 1)
        else (RuneError, 1)
      | _ => (RuneError, 1)
    else if 0xF0 ≤ s0 && s0 ≤ 0xF4 then
      let lo := if s0 = 0xF0 then 0x90 else 0x80
      let hi := if s0 = 0xF4 then 0x8F else 0xBF
      match rest with
      | s1 :: s2 :: s3 :: _ =>
        if lo ≤ s1 && s1 ≤ hi then
          if cont s2 then
            if cont s3 then
              ((s0 % 8) * 262144 + (s1 % 64) * 4096 + (s2 % 64) * 64 + s3 % 64, 4)
            else (RuneError, 1)
          else (RuneError, 1)
        else (RuneError, 1)
      | _ => (RuneError, 1)
    else (RuneError, 1)

/-- Go library function `utf8.RuneStart`: the byte is not a continuation byte. -/
def RuneStart (b : Nat) : Bool := !(0x80 ≤ b && b ≤ 0xBF)

/-- The scan of `utf8.DecodeLastRuneInString` for the start of the last rune:
from `start` down to `lim`, stop at the first byte that can start a rune;
`none` when the scan runs below index 0. -/
def lastRuneStart (s : GoString) (lim : Nat) : Nat → Nat → Option Nat
  | 0, _ => none
  | fuel + 1, start =>
    if start < lim then some start
    else if RuneStart (s.getD start 0) then some start
    else if start = 0 then none
    else lastRuneStart s lim fuel (start - 1)

/-- Go library function `utf8.DecodeLastRuneInString`: the last rune of `s` and its width. -/
def DecodeLastRuneInString (s : GoString) : Nat × Nat :=
  let endIdx := s.length
  if endIdx = 0 then (RuneError, 0)
  else
    let r := s.getD (endIdx - 1) 0
    if r < RuneSelf then (r, 1)
    else
      let lim := endIdx - 4
      let start :=
        if endIdx - 1 = 0 then 0
        else (lastRuneStart s lim 4 (endIdx - 2)).getD 0
      let (r', size) := DecodeRuneInString (s.drop start)
      if start + size ≠ endIdx then (RuneError, 1) else (r', size)

/-- Go library function `unicode.IsSpace`: the Unicode White_Space property. -/
def IsSpace (r : Nat) : Bool :=
  if r ≤ 0xFF then
    r = 0x09 || r = 0x0A || r = 0x0B || r = 0x0C || r = 0x0D || r = 0x20 || r = 0x85 || r = 0xA0
  else
    r = 0x1680 || (0x2000 ≤ r && r ≤ 0x200A) || r = 0x2028 || r = 0x2029 || r = 0x202F
      || r = 0x205F || r = 0x3000

/-- Go library function `strings.indexFunc(s, f, truth)` as the `for i, r := range s` loop: `skip`
counts the bytes of the current rune still to pass, `i` is the byte index. -/
def indexFuncAux (f : Nat → Bool) (truth : Bool) : GoString → Nat → Nat → Option Nat
  | [], _, _ => none
  | _ :: t, skip + 1, i => indexFuncAux f truth t skip (i + 1)
  | b :: t, 0, i =>
    let (r, size) := DecodeRuneInString (b :: t)
    if f r == truth then some i else indexFuncAux f truth t (size - 1) (i + 1)

/-- Go library function `strings.indexFunc`; `none` stands for -1. -/
def indexFunc (s : GoString) (f : Nat → Bool) (truth : Bool) : Option Nat :=
  indexFuncAux f truth s 0 0

/-- Go library function `strings.lastIndexFunc` as its loop `for i := len(s); i > 0;`; the first
argument bounds the number of iterations (each one lowers `i`). -/
def lastIndexFuncAux (s : GoString) (f : Nat → Bool) (truth : Bool) : Nat → Nat → Option Nat
  | 0, _ => none
  | fuel + 1, i =>
    if i = 0 then none
    else
      let (r, size) := DecodeLastRuneInString (s.take i)
      let i' := i - size
      if f r == truth then some i' else lastIndexFuncAux s f truth fuel i'

/-- Go library function `strings.lastIndexFunc`; `none` stands for -1. -/
def lastIndexFunc (s : GoString) (f : Nat → Bool) (truth : Bool) : Option Nat :=
  lastIndexFuncAux s f truth s.length s.length

/-- Go library function `strings.TrimLeftFunc`. -/
def TrimLeftFunc (s : GoString) (f : Nat → Bool) : GoString :=
  match indexFunc s f false with
  | none => []
  | some i => s.drop i

/-- Go library function `strings.TrimRightFunc`. -/
def TrimRightFunc (s : GoString) (f : Nat → Bool) : GoString :=
  match lastIndexFunc s f false with
  | none => s.take 0
  | some i =>
    if RuneSelf ≤ s.getD i 0 then s.take (i + (DecodeRuneInString (s.drop i)).2)
    else s.take (i + 1)

/-- Go library function `strings.TrimSpace(s)`: `s` without leading and trailing white space,
that is `TrimFunc(s, unicode.IsSpace)`. -/
def TrimSpace (s : GoString) : GoString :=
  TrimRightFunc (TrimLeftFunc s IsSpace) IsSpace

/-! ## rss.go: the name sanitizer -/

/-- The characters `/ \ : # ? < > * | "` of `invalidFileNameCharacters`. -/
def invalidFileNameCharacters : List Nat :=
  [0x2F, 0x5C, 0x3A, 0x23, 0x3F, 0x3C, 0x3E, 0x2A, 0x7C, 0x22]

/-- The function `fileNameClean(in)`: a valid file name for `in`. -/
def fileNameClean (inp : GoString) : GoString :=
  let inp := invalidFileNameCharacters.foldl (fun acc character => ReplaceAll acc character (str "-")) inp
  let out := TrimSpace inp
  if out.length > 256 then out.take 200 else out

/-! ## Panics, the collaborators and the data model -/

/-- A point in time (`time.Time`), as an instant on one clock. -/
abbrev Time := Int

/-- A Go `error` value, by its message. -/
abbrev GoError := GoString

/-- The ways the code under study stops with a Go panic. -/
inductive Panic where
  /-- The `panic(err)` of `die(err)` in main.go. -/
  | die (err : GoError)
  /-- The runtime panic "slice bounds out of range [lo:hi]". -/
  | sliceBounds (lo hi : Int)
  deriving DecidableEq, Repr

namespace gofeed

/-- The `gofeed.Person` of an item's author. -/
structure Person where
  Name : GoString
  deriving DecidableEq, Repr

/-- The fields of `gofeed.Item` the program reads. -/
structure Item where
  Title : GoString
  Link : GoString
  Content : GoString
  Author : Option Person
  UpdatedParsed : Option Time
  PublishedParsed : Option Time
  deriving DecidableEq, Repr

/-- The fields of `gofeed.Feed` the program reads. -/
structure Feed where
  Title : GoString
  Items : List Item
  deriving DecidableEq, Repr

end gofeed

/-- The fields of `user.User` the program reads. -/
structure User where
  Uid : GoString
  Gid : GoString
  deriving DecidableEq, Repr

/-- What the program takes from outside: the feed parser, the wall clock, the
text form of a time under the `%v` verb and the lookup of the current user. -/
structure Env where
  /-- The call `gofeed.NewParser().ParseURL(url)`. -/
  ParseURL : GoString → Except GoError gofeed.Feed
  /-- The call `time.Now()`. -/
  now : Time
  /-- The text `fmt.Sprintf` gives a `time.Time` under `%v`. -/
  fmtTime : Time → GoString
  /-- The call `user.Current()`. -/
  current : Except GoError User

deriving instance DecidableEq for Except

/-- The function `die(err)` of main.go: panics when `err` is not nil. -/
def die {α : Type} (r : Except GoError α) : Except Panic α :=
  match r with
  | .ok a => .ok a
  | .error err => .error (Panic.die err)

/-- The struct `Feed` of main.go. -/
structure Feed where
  URL : GoString
  deriving DecidableEq, Repr

/-- The struct `Category` of main.go. -/
structure Category where
  Name : GoString
  Feeds : List Feed
  deriving DecidableEq, Repr

/-- A `sync.Map` with string keys: at most one value per key. The entries are
kept in the order of the first `Store` of their key. -/
abbrev SyncMap (α : Type) := List (GoString × α)

/-- The call `m.Store(key, value)`: sets the value for the key, replacing the one it had. -/
def SyncMap.Store {α : Type} : SyncMap α → GoString → α → SyncMap α
  | [], key, value => [(key, value)]
  | (k, v) :: rest, key, value =>
    if k = key then (key, value) :: rest else (k, v) :: SyncMap.Store rest key value

/-- The call `m.Load(key)`. -/
def SyncMap.Load {α : Type} : SyncMap α → GoString → Option α
  | [], _ => none
  | (k, v) :: rest, key => if k = key then some v else SyncMap.Load rest key

/-- The values `m.Range` visits, one per key. Go leaves the order of the visit
unspecified; here it is the order of the entries. -/
def SyncMap.Range {α : Type} (m : SyncMap α) : List α := m.map Prod.snd

/-- The struct `GenericNode` of fuse.go (its embedded `fs.Inode`, the bookkeeping
of the FUSE library, is left out). -/
structure GenericNode where
  Ino : Nat
  Filename : GoString
  Timestamp : Time
  deriving DecidableEq, Repr

/-- The struct `NewsNode`. -/
structure NewsNode extends GenericNode where
  Data : List Nat
  deriving DecidableEq, Repr

/-- The struct `FeedNode`. -/
structure FeedNode extends GenericNode, Feed where
  News : SyncMap NewsNode
  deriving DecidableEq, Repr

/-- The struct `CategoryNode`. -/
structure CategoryNode extends GenericNode where
  Feeds : SyncMap FeedNode
  deriving DecidableEq, Repr

/-- The struct `RootNode`. -/
structure RootNode extends GenericNode where
  Cats : SyncMap CategoryNode
  deriving DecidableEq, Repr

/-! ## rss.go: the leaf materializer -/

/-- The method `ByTitle.Less`, on two items. -/
def ByTitle.Less (a b : gofeed.Item) : Bool :=
  stringLess (fileNameClean a.Title) (fileNameClean b.Title)

/-- One insertion into a list sorted by `ByTitle.Less`. -/
def ByTitle.insert (x : gofeed.Item) : List gofeed.Item → List gofeed.Item
  | [] => [x]
  | y :: ys => if ByTitle.Less y x then y :: ByTitle.insert x ys else x :: y :: ys

/-- The call `sort.Sort(ByTitle(items))`: the items in ascending order of their
sanitized titles. Go leaves the order among items of equal sanitized title
unspecified; here they keep their input order. -/
def ByTitle.Sort (items : List gofeed.Item) : List gofeed.Item :=
  items.foldr ByTitle.insert []

/-- The function `getItemTimestamp`. -/
def getItemTimestamp (env : Env) (item : gofeed.Item) : Time :=
  match item.UpdatedParsed with
  | some t => t
  | none =>
    match item.PublishedParsed with
    | some t => t
    | none => env.now

/-- The function `getInode`: the 64-bit FNV-1 hash of the data (`fnv.New64`),
whose `Write` never returns an error. -/
def getInode (data : List Nat) : Nat :=
  data.foldl (fun h b => ((h * 1099511628211) % 2 ^ 64) ^^^ b) 14695981039346656037

/-- The function `getFeedData`: parse the feed, panic on an error, sort the items. -/
def getFeedData (env : Env) (url : GoString) : Except Panic gofeed.Feed :=
  match die (env.ParseURL url) with
  | .error p => .error p
  | .ok feeddata => .ok { feeddata with Items := ByTitle.Sort feeddata.Items }

/-- The function `GenerateOutputData`. -/
def GenerateOutputData (env : Env) (it : gofeed.Item) : GoString × GoString :=
  let title := str "<h1><a href=\"" ++ it.Link ++ str "\">" ++ it.Title ++ str "</a></h1>"
  let name := match it.Author with
    | some author => author.Name
    | none => str "Unknown author"
  let info := str "<h2><a href=\"" ++ it.Link ++ str "\">" ++ name ++ str "</a> published at "
    ++ env.fmtTime (getItemTimestamp env it) ++ str "</h2>"
  let content := title ++ str "\n" ++ info ++ str "\n" ++ it.Content
  (str "html", content)

/-- The text of a non-negative `int` under the `%d` verb. -/
def fmtInt (n : Nat) : GoString := (Nat.toDigits 10 n).map Char.toNat

/-- The variables the loop of `GetFeedFiles` carries from item to item. -/
structure FeedFilesLoop where
  prev_title : GoString
  col_cnt : Nat
  feedFiles : List NewsNode
  deriving DecidableEq, Repr

/-- One iteration of the loop of `GetFeedFiles` (rss.go lines 65 to 89). -/
def GetFeedFiles.body (env : Env) (st : FeedFilesLoop) (item : gofeed.Item) : FeedFilesLoop :=
  let title := fileNameClean item.Title
  let col_cnt := if title = st.prev_title then st.col_cnt + 1 else 0
  let title := if col_cnt > 0 then title ++ str " [" ++ fmtInt col_cnt ++ str "]" else title
  let prev_title := title
  let (extension, content) := GenerateOutputData env item
  let fname := title ++ str "." ++ extension
  { prev_title := prev_title
    col_cnt := col_cnt
    feedFiles := st.feedFiles ++
      [{ Filename := fname, Timestamp := getItemTimestamp env item, Ino := getInode content,
         Data := content }] }

/-- The function `GetFeedFiles`, on the URL of the feed node. -/
def GetFeedFiles (env : Env) (url : GoString) : Except Panic (List NewsNode) :=
  match getFeedData env url with
  | .error p => .error p
  | .ok feeddata =>
    .ok (feeddata.Items.foldl (GetFeedFiles.body env)
      { prev_title := str "", col_cnt := 0, feedFiles := [] }).feedFiles

/-! ## fuse.go: attributes -/

/-- The interface `node`: the pointer types that implement it. -/
inductive Node where
  | generic (gn : GenericNode)
  | root (r : RootNode)
  | category (cn : CategoryNode)
  | feed (fn : FeedNode)
  | news (nn : NewsNode)
  deriving DecidableEq, Repr

/-- The file type bits `syscall.S_IFDIR`. -/
def S_IFDIR : Nat := 0o040000

/-- The file type bits `syscall.S_IFREG`. -/
def S_IFREG : Nat := 0o100000

/-- The mask `syscall.S_IFMT` of the file type bits. -/
def S_IFMT : Nat := 0o170000

/-- The method `node()`: the embedded `GenericNode`. -/
def Node.node : Node → GenericNode
  | .generic gn => gn
  | .root r => r.toGenericNode
  | .category cn => cn.toGenericNode
  | .feed fn => fn.toGenericNode
  | .news nn => nn.toGenericNode

/-- The method `(*GenericNode).size`. -/
def GenericNode.size (_dir : GenericNode) : Nat := 0

/-- The method `(*GenericNode).mode`. -/
def GenericNode.mode (_dir : GenericNode) : Nat := 0o755 ||| S_IFDIR

/-- The method `(*NewsNode).size`: the length as a `uint64` (a length is below 2^63,
so the conversion keeps it). -/
def NewsNode.size (file : NewsNode) : Nat := file.Data.length

/-- The method `(*NewsNode).mode`. -/
def NewsNode.mode (_file : NewsNode) : Nat := 0o644 ||| S_IFREG

/-- The method `size()` of the interface: `NewsNode` has its own, the other types
have the one promoted from `GenericNode`. -/
def Node.size : Node → Nat
  | .news nn => nn.size
  | n => n.node.size

/-- The method `mode()` of the interface, dispatched as `size()` is. -/
def Node.mode : Node → Nat
  | .news nn => nn.mode
  | n => n.node.mode

/-- The fields of `fuse.Attr` that `setAttributes` writes. -/
structure Attr where
  Ino : Nat
  Size : Nat
  Atime : Time
  Mtime : Time
  Ctime : Time
  Mode : Nat
  Uid : Nat
  Gid : Nat
  deriving DecidableEq, Repr

/-- The digit loop of `strconv.ParseUint(s, 10, 32)` with the error dropped: 0 on
a syntax error, the largest value on a range error. -/
def ParseUint32Aux : GoString → Nat → Nat
  | [], n => n
  | c :: t, n =>
    if 0x30 ≤ c ∧ c ≤ 0x39 then
      let n1 := n * 10 + (c - 0x30)
      if n1 > 2 ^ 32 - 1 then 2 ^ 32 - 1 else ParseUint32Aux t n1
    else 0

/-- The value `v` of `v, _ := strconv.ParseUint(s, 10, 32)`. -/
def ParseUint32 (s : GoString) : Nat := ParseUint32Aux s 0

/-- The function `setAttributes(n, out)`; the result is the new content of `out`. -/
def setAttributes (env : Env) (n : Node) (out : Attr) : Except Panic Attr :=
  let gn := n.node
  match die env.current with
  | .error p => .error p
  | .ok user =>
    let out := { out with Atime := gn.Timestamp, Mtime := gn.Timestamp, Ctime := gn.Timestamp }
    let out := { out with Mode := n.mode }
    let out := { out with Size := n.size }
    let out := { out with Ino := gn.Ino }
    let uid32 := ParseUint32 user.Uid
    let gid32 := ParseUint32 user.Gid
    let out := { out with Uid := uid32 % 2 ^ 32 }
    .ok { out with Gid := gid32 % 2 ^ 32 }

/-- A `syscall.Errno`. -/
abbrev Errno := Nat

/-- The status `fs.OK`. -/
def OK : Errno := 0

/-- The status `syscall.ENOENT`. -/
def ENOENT : Errno := 2

/-- The status `syscall.EIO`. -/
def EIO : Errno := 5

/-- The method `(*GenericNode).Getattr`: the new `out.Attr` and the status. -/
def GenericNode.Getattr (env : Env) (gn : GenericNode) (out : Attr) : Except Panic (Attr × Errno) :=
  match setAttributes env (.generic gn) out with
  | .error p => .error p
  | .ok a => .ok (a, OK)

/-- The method `(*NewsNode).Getattr`. -/
def NewsNode.Getattr (env : Env) (nn : NewsNode) (out : Attr) : Except Panic (Attr × Errno) :=
  match setAttributes env (.news nn) out with
  | .error p => .error p
  | .ok a => .ok (a, OK)

/-- The method `Getattr` of a `RootNode`, promoted from its `GenericNode`. -/
def RootNode.Getattr (env : Env) (r : RootNode) (out : Attr) : Except Panic (Attr × Errno) :=
  r.toGenericNode.Getattr env out

/-- The method `Getattr` of a `CategoryNode`, promoted from its `GenericNode`. -/
def CategoryNode.Getattr (env : Env) (cn : CategoryNode) (out : Attr) :
    Except Panic (Attr × Errno) :=
  cn.toGenericNode.Getattr env out

/-- The method `Getattr` of a `FeedNode`, promoted from its `GenericNode`. -/
def FeedNode.Getattr (env : Env) (fn : FeedNode) (out : Attr) : Except Panic (Attr × Errno) :=
  fn.toGenericNode.Getattr env out

/-! ## fuse.go: listing, lookup and read -/

/-- The method `(*RootNode).readdir`. -/
def RootNode.readdir (root : RootNode) : List Node :=
  root.Cats.Range.map Node.category

/-- The method `(*CategoryNode).readdir`. -/
def CategoryNode.readdir (cn : CategoryNode) : List Node :=
  cn.Feeds.Range.map Node.feed

/-- One iteration of the loop of `(*FeedNode).readdir` (fuse.go lines 123 and 124)
on the collection and the list built so far. -/
def FeedNode.readdir.body (acc : SyncMap NewsNode × List Node) (feed : NewsNode) :
    SyncMap NewsNode × List Node :=
  (acc.1.Store feed.Filename feed, acc.2 ++ [Node.news feed])

/-- The method `(*FeedNode).readdir`: the feed node as the call leaves it, and
the returned list or the panic. -/
def FeedNode.readdir (env : Env) (fn : FeedNode) : FeedNode × Except Panic (List Node) :=
  let fn := { fn with News := [] }
  let ret : List Node := []
  match GetFeedFiles env fn.URL with
  | .error p => (fn, .error p)
  | .ok feeds =>
    let acc := feeds.foldl FeedNode.readdir.body (fn.News, ret)
    ({ fn with News := acc.1 }, .ok acc.2)

/-- A `fuse.DirEntry`. -/
structure DirEntry where
  Name : GoString
  Mode : Nat
  Ino : Nat
  deriving DecidableEq, Repr

/-- The function `nodesToDirstream`: the entries of the stream and the status. -/
def nodesToDirstream (nodes : List Node) : List DirEntry × Errno :=
  (nodes.map (fun n =>
    let gn := n.node
    { Name := gn.Filename, Mode := gn.mode, Ino := gn.Ino }), OK)

/-- The method `(*FeedNode).Readdir`. -/
def FeedNode.Readdir (env : Env) (fn : FeedNode) :
    FeedNode × Except Panic (List DirEntry × Errno) :=
  match FeedNode.readdir env fn with
  | (fn1, .error p) => (fn1, .error p)
  | (fn1, .ok nodes) => (fn1, .ok (nodesToDirstream nodes))

/-- The method `(*CategoryNode).Readdir`. -/
def CategoryNode.Readdir (cn : CategoryNode) : List DirEntry × Errno :=
  nodesToDirstream cn.readdir

/-- The method `(*RootNode).Readdir`. -/
def RootNode.Readdir (root : RootNode) : List DirEntry × Errno :=
  nodesToDirstream root.readdir

/-- The function `lookupSyncMap`, for a map whose values are wrapped by `wrap`. -/
def lookupSyncMap {α : Type} (wrap : α → Node) (sm : SyncMap α) (name : GoString) :
    Option Node × Bool :=
  match sm.Load name with
  | none => (none, false)
  | some v => (some (wrap v), true)

/-- The method `(*RootNode).lookup`. -/
def RootNode.lookup (root : RootNode) (name : GoString) : Option Node × Bool :=
  lookupSyncMap Node.category root.Cats name

/-- The method `(*CategoryNode).lookup`. -/
def CategoryNode.lookup (cn : CategoryNode) (name : GoString) : Option Node × Bool :=
  lookupSyncMap Node.feed cn.Feeds name

/-- The method `(*FeedNode).lookup`. -/
def FeedNode.lookup (fn : FeedNode) (name : GoString) : Option Node × Bool :=
  lookupSyncMap Node.news fn.News name

/-- The call `Readdir` on the feed node that the tree `root` holds under the
category name `cat` and the feed name `feed`. The tree holds its nodes by
pointer, so what the call writes to the feed node is written in the tree: the
result is the tree as it is when the call returns or panics, with the outcome
of the call (`none` when the tree holds no such feed). -/
def RootNode.ReaddirFeed (env : Env) (root : RootNode) (cat feed : GoString) :
    RootNode × Option (Except Panic (List DirEntry × Errno)) :=
  match root.Cats.Load cat with
  | none => (root, none)
  | some cn =>
    match cn.Feeds.Load feed with
    | none => (root, none)
    | some fn =>
      let r := FeedNode.Readdir env fn
      ({ root with Cats := root.Cats.Store cat { cn with Feeds := cn.Feeds.Store feed r.1 } },
        some r.2)

/-- The value of a sum of two `int` (64 bits wide): it wraps around. -/
def wrapInt (x : Int) : Int := (x + 2 ^ 63) % 2 ^ 64 - 2 ^ 63

/-- The slice expression `s[lo:hi]` for `hi` up to the length of `s`: it panics
unless `0 <= lo <= hi`. -/
def sliceExpr (s : List Nat) (lo hi : Int) : Except Panic (List Nat) :=
  if 0 ≤ lo ∧ lo ≤ hi ∧ hi ≤ s.length then .ok ((s.take hi.toNat).drop lo.toNat)
  else .error (Panic.sliceBounds lo hi)

/-- The method `(*NewsNode).Read` for a destination buffer of `destLen` bytes: the
node as the call leaves it, and the bytes of the read result with the status,
or the panic. `endIdx` is the variable `end` of the source. -/
def NewsNode.Read (nn : NewsNode) (destLen : Nat) (off : Int) :
    NewsNode × Except Panic (List Nat × Errno) :=
  let endIdx := wrapInt (off + destLen)
  let endIdx := if endIdx > nn.Data.length then (nn.Data.length : Int) else endIdx
  match sliceExpr nn.Data off endIdx with
  | .error p => (nn, .error p)
  | .ok data => (nn, .ok (data, OK))

/-! ## fuse.go: the refresh of a feed, statement by statement -/

/-- Where one call of `(*FeedNode).readdir` stands. -/
inductive ReaddirPC where
  /-- Before line 118: nothing is done yet. -/
  | entry
  /-- After `fn.News = &sync.Map{}` and `ret := make([]node, 0)`, before line 121. -/
  | fetch
  /-- In the loop, `i` items stored, after `feeds := GetFeedFiles(fn)` returned. -/
  | store (feeds : List NewsNode) (i : Nat) (ret : List Node)
  /-- After `return ret`. -/
  | returned (ret : List Node)
  /-- The call ended in a panic. -/
  | panicked (p : Panic)
  deriving DecidableEq, Repr

/-- The feed node, whose `News` every other request handler reads, together
with the position of the running `readdir` call. -/
structure ReaddirState where
  fn : FeedNode
  pc : ReaddirPC
  deriving DecidableEq, Repr

/-- One statement of `(*FeedNode).readdir`. -/
def FeedNode.readdirStep (env : Env) (s : ReaddirState) : ReaddirState :=
  match s.pc with
  | .entry => { fn := { s.fn with News := [] }, pc := .fetch }
  | .fetch =>
    match GetFeedFiles env s.fn.URL with
    | .error p => { s with pc := .panicked p }
    | .ok feeds => { s with pc := .store feeds 0 [] }
  | .store feeds i ret =>
    if h : i < feeds.length then
      { fn := { s.fn with News := s.fn.News.Store feeds[i].Filename feeds[i] }
        pc := .store feeds (i + 1) (ret ++ [Node.news feeds[i]]) }
    else { s with pc := .returned ret }
  | .returned _ => s
  | .panicked _ => s

/-- The state after `k` statements of `(*FeedNode).readdir`. -/
def FeedNode.readdirRun (env : Env) : Nat → ReaddirState → ReaddirState
  | 0, s => s
  | k + 1, s => FeedNode.readdirRun env k (FeedNode.readdirStep env s)

/-- The collection the feed node holds when one refresh of `fn` has done `k`
statements and no other call has written it: what a reader that only reads,
such as `lookup`, finds there. (A listing of the feed is not such a reader: it
is a `readdir` of its own, see `FeedNode.readdirInterleaved`.) -/
def FeedNode.observedNews (env : Env) (fn : FeedNode) (k : Nat) : SyncMap NewsNode :=
  (FeedNode.readdirRun env k { fn := fn, pc := .entry }).fn.News

/-- Two calls of `(*FeedNode).readdir` in progress on one feed node, as two
listings of the feed served at the same time are: the node they share and the
position of each call. -/
structure ReaddirPair where
  fn : FeedNode
  first : ReaddirPC
  second : ReaddirPC
  deriving DecidableEq, Repr

/-- One statement of the first call (`true`) or of the second (`false`), on the
feed node as the statements before it left it. -/
def FeedNode.readdirStepOf (env : Env) (first : Bool) (s : ReaddirPair) : ReaddirPair :=
  if first then
    let t := FeedNode.readdirStep env { fn := s.fn, pc := s.first }
    { fn := t.fn, first := t.pc, second := s.second }
  else
    let t := FeedNode.readdirStep env { fn := s.fn, pc := s.second }
    { fn := t.fn, first := s.first, second := t.pc }

/-- The statements of two calls interleaved in the order of the schedule. -/
def FeedNode.readdirInterleaved (env : Env) : List Bool → ReaddirPair → ReaddirPair
  | [], s => s
  | b :: rest, s => FeedNode.readdirInterleaved env rest (FeedNode.readdirStepOf env b s)

/-- The file names of the list a call has returned, `none` while it has not. -/
def ReaddirPC.returnedNames : ReaddirPC → Option (List GoString)
  | .returned ret => some (ret.map (fun n => n.node.Filename))
  | _ => none

/-- The collection that holds each node of the list under its file name, stored
in list order into an empty collection. -/
def SyncMap.ofNews (feeds : List NewsNode) : SyncMap NewsNode :=
  feeds.foldl (fun m n => m.Store n.Filename n) []

/-! ## fuse.go: the tree builder -/

/-- The function `getFeedNode`. -/
def getFeedNode (env : Env) (f : Feed) : Except Panic FeedNode :=
  match getFeedData env f.URL with
  | .error p => .error p
  | .ok feeddata =>
    .ok { Timestamp := env.now, Filename := feeddata.Title,
          Ino := getInode (str "feed " ++ feeddata.Title), URL := f.URL, News := [] }

/-- The collector loop of `getCategoryNode` (fuse.go lines 278 to 282), over the
feed nodes in the order the channel delivers them. -/
def getCategoryNode.collect (cn : CategoryNode) : List FeedNode → CategoryNode
  | [] => cn
  | feed :: rest =>
    let feed := { feed with Filename := fileNameClean feed.Filename }
    getCategoryNode.collect { cn with Feeds := cn.Feeds.Store feed.Filename feed } rest

/-- The function `getCategoryNode`. One worker per feed of the category sends its
node on the channel; `arrival` lists the feeds in the order their nodes are
received, a permutation of `cat.Feeds`. A panic of a worker ends the program. -/
def getCategoryNode (env : Env) (cat : Category) (arrival : List Feed) :
    Except Panic CategoryNode :=
  let cn : CategoryNode :=
    { Timestamp := env.now, Filename := cat.Name, Ino := getInode (str "Cat " ++ cat.Name),
      Feeds := [] }
  match arrival.mapM (getFeedNode env) with
  | .error p => .error p
  | .ok feeds => .ok (getCategoryNode.collect cn feeds)

/-- The collector loop of `getRootNode` (fuse.go lines 300 to 304). -/
def getRootNode.collect (root : RootNode) : List CategoryNode → RootNode
  | [] => root
  | cat :: rest =>
    let cat := { cat with Filename := fileNameClean cat.Filename }
    getRootNode.collect { root with Cats := root.Cats.Store cat.Filename cat } rest

/-- The function `getRootNode`. `arrival` lists the categories in the order their
nodes are received, a permutation of `cats`, each with the arrival order of its
own feeds. The root keeps the zero values of `Ino` and `Filename`. -/
def getRootNode (env : Env) (arrival : List (Category × List Feed)) : Except Panic RootNode :=
  let root : RootNode := { Timestamp := env.now, Ino := 0, Filename := [], Cats := [] }
  match arrival.mapM (fun c => getCategoryNode env c.1 c.2) with
  | .error p => .error p
  | .ok cats => .ok (getRootNode.collect root cats)

/-! ## Concrete inputs -/

/-- An item with the given title and content. -/
def itemOf (title content : String) : gofeed.Item :=
  { Title := str title, Link := str "http://x/post", Content := str content, Author := none,
    UpdatedParsed := some 0, PublishedParsed := none }

/-- An environment whose parser answers every URL with a feed titled `title`
holding the given items, and whose other collaborators are fixed. -/
def envOfItems (title : String) (items : List gofeed.Item) : Env :=
  { ParseURL := fun _ => .ok { Title := str title, Items := items }
    now := 0
    fmtTime := fun _ => str "T"
    current := .ok { Uid := str "1000", Gid := str "1000" } }

/-- An environment whose feeds hold one item, with empty content, per title. -/
def envOfTitles (title : String) (titles : List String) : Env :=
  envOfItems title (titles.map (fun t => itemOf t ""))

/-- An environment whose parser fails on every URL. -/
def envFetchFails : Env :=
  { ParseURL := fun _ => .error (str "no such host")
    now := 0
    fmtTime := fun _ => str "T"
    current := .ok { Uid := str "1000", Gid := str "1000" } }

/-- The file names of the nodes `GetFeedFiles` returns. -/
def feedFileNames (env : Env) (url : GoString) : Except Panic (List GoString) :=
  match GetFeedFiles env url with
  | .error p => .error p
  | .ok feeds => .ok (feeds.map (fun n => n.Filename))

/-- A `fuse.Attr` with every field zero, as a fresh `fuse.AttrOut` holds. -/
def zeroAttr : Attr :=
  { Ino := 0, Size := 0, Atime := 0, Mtime := 0, Ctime := 0, Mode := 0, Uid := 0, Gid := 0 }

/-- A news node of an earlier listing. -/
def oldNews : NewsNode :=
  { Ino := 11, Filename := str "Old.html", Timestamp := 0, Data := str "old" }

/-- A feed node `HN` that holds one child from an earlier listing. -/
def feedHN : FeedNode :=
  { Ino := 5, Filename := str "HN", Timestamp := 0, URL := str "http://x/feed",
    News := [(str "Old.html", oldNews)] }

/-- A category `Tech` with two configured feeds. -/
def catTech : Category :=
  { Name := str "Tech", Feeds := [{ URL := str "http://x/feed" }, { URL := str "http://y/feed" }] }

/-- A second feed node, `Lobsters`, with one child. -/
def feedLobsters : FeedNode :=
  { Ino := 6, Filename := str "Lobsters", Timestamp := 0, URL := str "http://y/feed",
    News := [(str "Old.html", oldNews)] }

/-- A category node `Tech` that holds the feeds `HN` and `Lobsters`. -/
def catNodeTech : CategoryNode :=
  { Ino := 1, Filename := str "Tech", Timestamp := 0,
    Feeds := [(str "HN", feedHN), (str "Lobsters", feedLobsters)] }

/-- A tree with the category `Tech` and the category `World`, which holds the
feed `Lobsters`. -/
def rootTwoCats : RootNode :=
  { Ino := 0, Filename := [], Timestamp := 0,
    Cats := [(str "Tech", catNodeTech),
             (str "World",
                { Ino := 2, Filename := str "World", Timestamp := 0,
                  Feeds := [(str "Lobsters", feedLobsters)] })] }

/-! ## The name sanitizer: lemmas -/

theorem ReplaceAll_dash (s : GoString) (c : Nat) :
    ReplaceAll s c (str "-") = s.map (fun b => if b = c then 0x2D else b) := by
  have hdash : str "-" = [0x2D] := rfl
  unfold ReplaceAll
  rw [hdash]
  induction s with
  | nil => rfl
  | cons b t ih =>
    rw [List.flatMap_cons, ih, List.map_cons]
    by_cases h : b = c <;> simp [h]

theorem foldl_ReplaceAll_dash (cs : List Nat) (hcs : 0x2D ∉ cs) (s : GoString) :
    cs.foldl (fun acc character => ReplaceAll acc character (str "-")) s
      = s.map (fun b => if b ∈ cs then 0x2D else b) := by
  induction cs generalizing s with
  | nil => simp
  | cons c cs ih =>
    have hc : (0x2D : Nat) ≠ c := fun h => hcs (by simp [h])
    have hcs2 : 0x2D ∉ cs := fun h => hcs (by simp [h])
    rw [List.foldl_cons, ih hcs2, ReplaceAll_dash, List.map_map]
    apply List.map_congr_left
    intro b _
    by_cases hb : b = c
    · simp [hb, hcs2]
    · simp [hb]

theorem TrimLeftFunc_subset (s : GoString) (f : Nat → Bool) (x : Nat)
    (hx : x ∈ TrimLeftFunc s f) : x ∈ s := by
  unfold TrimLeftFunc at hx
  split at hx
  · simp at hx
  · exact List.mem_of_mem_drop hx

theorem TrimRightFunc_subset (s : GoString) (f : Nat → Bool) (x : Nat)
    (hx : x ∈ TrimRightFunc s f) : x ∈ s := by
  unfold TrimRightFunc at hx
  split at hx
  · simp at hx
  · split at hx <;> exact List.mem_of_mem_take hx

theorem TrimSpace_subset (s : GoString) (x : Nat) (hx : x ∈ TrimSpace s) : x ∈ s :=
  TrimLeftFunc_subset s IsSpace x (TrimRightFunc_subset _ IsSpace x hx)

theorem fileNameClean_eq (s : GoString) :
    fileNameClean s =
      (if (TrimSpace (s.map (fun b => if b ∈ invalidFileNameCharacters then 0x2D else b))).length
          > 256
       then (TrimSpace (s.map (fun b => if b ∈ invalidFileNameCharacters then 0x2D else b))).take 200
       else TrimSpace (s.map (fun b => if b ∈ invalidFileNameCharacters then 0x2D else b))) := by
  unfold fileNameClean
  rw [foldl_ReplaceAll_dash invalidFileNameCharacters (by decide) s]

/-! ## Claims -/

/-- C5: for every input string, `fileNameClean` returns the input with each
occurrence of the ten reserved bytes `/ \ : # ? < > * | "` (0x2F, 0x5C, 0x3A,
0x23, 0x3F, 0x3C, 0x3E, 0x2A, 0x7C, 0x22) replaced by `-` (0x2D), then trimmed
by `TrimSpace` and, when the trimmed name is longer than 256 bytes, cut to its
first 200 bytes; the result contains none of the ten reserved bytes. -/
theorem fileNameClean_no_reserved (s : GoString) :
    ∃ trimmed : GoString,
      trimmed = TrimSpace (s.map (fun b =>
        if b ∈ [0x2F, 0x5C, 0x3A, 0x23, 0x3F, 0x3C, 0x3E, 0x2A, 0x7C, 0x22] then 0x2D else b)) ∧
      fileNameClean s = (if trimmed.length > 256 then trimmed.take 200 else trimmed) ∧
      (∀ x ∈ trimmed, x ∈ s.map (fun b =>
        if b ∈ [0x2F, 0x5C, 0x3A, 0x23, 0x3F, 0x3C, 0x3E, 0x2A, 0x7C, 0x22] then 0x2D else b)) ∧
      0x2F ∉ fileNameClean s ∧ 0x5C ∉ fileNameClean s ∧ 0x3A ∉ fileNameClean s ∧
      0x23 ∉ fileNameClean s ∧ 0x3F ∉ fileNameClean s ∧ 0x3C ∉ fileNameClean s ∧
      0x3E ∉ fileNameClean s ∧ 0x2A ∉ fileNameClean s ∧ 0x7C ∉ fileNameClean s ∧
      0x22 ∉ fileNameClean s := by
  have heq := fileNameClean_eq s
  have hsub : ∀ x ∈ fileNameClean s,
      x ∈ s.map (fun b => if b ∈ invalidFileNameCharacters then 0x2D else b) := by
    intro x hx
    rw [heq] at hx
    split at hx
    · exact TrimSpace_subset _ x (List.mem_of_mem_take hx)
    · exact TrimSpace_subset _ x hx
  have hnone : ∀ c ∈ invalidFileNameCharacters, c ∉ fileNameClean s := by
    intro c hc hmem
    obtain ⟨b, _, hb⟩ := List.mem_map.mp (hsub c hmem)
    by_cases hbi : b ∈ invalidFileNameCharacters
    · rw [if_pos hbi] at hb
      subst hb
      revert hc
      decide
    · rw [if_neg hbi] at hb
      subst hb
      exact hbi hc
  exact ⟨_, rfl, heq, fun x hx => TrimSpace_subset _ x hx,
    hnone _ (by decide), hnone _ (by decide), hnone _ (by decide), hnone _ (by decide),
    hnone _ (by decide), hnone _ (by decide), hnone _ (by decide), hnone _ (by decide),
    hnone _ (by decide), hnone _ (by decide)⟩

set_option maxRecDepth 100000 in
theorem fileNameClean_replicate_201 :
    (fileNameClean (List.replicate 201 0x61)).length = 201 := by decide

/-- C6, as the claim states it, fails: a title of 201 letters `a` is returned
whole, 201 bytes long. -/
theorem fileNameClean_length_201 :
    (fileNameClean (List.replicate 201 0x61)).length = 201 ∧
    ¬ (∀ s : GoString, (fileNameClean s).length ≤ 200) := by
  have h := fileNameClean_replicate_201
  refine ⟨h, fun hall => ?_⟩
  have := hall (List.replicate 201 0x61)
  omega

/-- C6, amended: for every input string the byte length of `fileNameClean` is at
most 256. With the trimmed name being the input with the reserved bytes
replaced by `-` and then trimmed by `TrimSpace`: a trimmed name of more than
256 bytes is cut to its first 200 bytes (the result is 200 bytes long), and a
trimmed name of at most 256 bytes is returned whole. -/
theorem fileNameClean_length_le_256 (s : GoString) :
    ∃ trimmed : GoString,
      trimmed = TrimSpace (s.map (fun b =>
        if b ∈ [0x2F, 0x5C, 0x3A, 0x23, 0x3F, 0x3C, 0x3E, 0x2A, 0x7C, 0x22] then 0x2D else b)) ∧
      (fileNameClean s).length ≤ 256 ∧
      (trimmed.length > 256 →
        fileNameClean s = trimmed.take 200 ∧ (fileNameClean s).length = 200) ∧
      (trimmed.length ≤ 256 → fileNameClean s = trimmed) := by
  have heq := fileNameClean_eq s
  refine ⟨TrimSpace (s.map (fun b => if b ∈ invalidFileNameCharacters then 0x2D else b)),
    rfl, ?_, ?_, ?_⟩
  · rw [heq]
    split
    · rw [List.length_take]; omega
    · omega
  · intro h
    rw [heq, if_pos h, List.length_take]
    exact ⟨rfl, by omega⟩
  · intro h
    rw [heq, if_neg (by omega)]

/-! ## Read -/

theorem wrapInt_of_fits (x : Int) (hlo : -(2 ^ 63) ≤ x) (hhi : x < 2 ^ 63) : wrapInt x = x := by
  unfold wrapInt
  rw [Int.emod_eq_of_lt (by omega) (by omega)]
  omega

theorem wrapInt_range (x : Int) : -(2 ^ 63) ≤ wrapInt x ∧ wrapInt x < 2 ^ 63 := by
  unfold wrapInt
  have h1 := Int.emod_nonneg (x + 2 ^ 63) (show (2 ^ 64 : Int) ≠ 0 by norm_num)
  have h2 := Int.emod_lt_of_pos (x + 2 ^ 63) (show (0 : Int) < 2 ^ 64 by norm_num)
  omega

/-- Every read at an offset beyond the content ends in the slice-bounds panic,
whatever the length of the destination buffer. -/
theorem NewsNode_Read_past_end_panics (nn : NewsNode) (destLen : Nat) (off : Int)
    (hoff : (nn.Data.length : Int) < off) :
    ∃ hi : Int, hi ≤ nn.Data.length ∧
      NewsNode.Read nn destLen off = (nn, .error (Panic.sliceBounds off hi)) := by
  unfold NewsNode.Read
  simp only []
  by_cases hgt : wrapInt (off + destLen) > nn.Data.length
  · refine ⟨nn.Data.length, le_refl _, ?_⟩
    rw [if_pos hgt]
    unfold sliceExpr
    rw [if_neg (by omega)]
  · refine ⟨wrapInt (off + destLen), by omega, ?_⟩
    rw [if_neg hgt]
    unfold sliceExpr
    rw [if_neg (by omega)]

/-- C3, at a failing input: on content `hello` (5 bytes) a read of 4 bytes at
offset 6 does not return OK with an empty result, it ends in the panic
"slice bounds out of range [6:5]". -/
theorem NewsNode_Read_offset_6_of_5_panics :
    NewsNode.Read { Ino := 1, Filename := str "A.html", Timestamp := 0, Data := str "hello" } 4 6
      = ({ Ino := 1, Filename := str "A.html", Timestamp := 0, Data := str "hello" },
         .error (Panic.sliceBounds 6 5)) := by
  decide

theorem NewsNode_Read_eq (nn : NewsNode) (n : Nat) (off : Int)
    (h0 : 0 ≤ off) (h1 : off ≤ nn.Data.length) (hmem : (nn.Data.length : Int) + n < 2 ^ 63) :
    NewsNode.Read nn n off
      = (nn, .ok ((nn.Data.take (min (off.toNat + n) nn.Data.length)).drop off.toNat, OK)) := by
  unfold NewsNode.Read
  simp only []
  rw [wrapInt_of_fits _ (by omega) (by omega)]
  by_cases hgt : (off + n) > nn.Data.length
  · rw [if_pos hgt]
    unfold sliceExpr
    rw [if_pos (by omega)]
    have hmin : min (off.toNat + n) nn.Data.length = nn.Data.length := by omega
    rw [hmin, Int.toNat_ofNat]
  · rw [if_neg hgt]
    unfold sliceExpr
    rw [if_pos (by omega)]
    have hmin : min (off.toNat + n) nn.Data.length = off.toNat + n := by omega
    have hnat : (off + (n : Int)).toNat = off.toNat + n := by omega
    rw [hmin, hnat]

/-- C4: for content `Data`, an offset `off` with `0 <= off <= len(Data)` and a
destination buffer of `n` bytes (content and buffer both being in memory, their
lengths add up below 2^63), `Read` returns OK with exactly the bytes
`Data[off .. min(off+n, len(Data)))`: the result has length
`min(n, len(Data) - off)`, its byte `j` is `Data[off+j]`, and the node with its
`Data` is as before. -/
theorem NewsNode_Read_subrange (nn : NewsNode) (n : Nat) (off : Int)
    (h0 : 0 ≤ off) (h1 : off ≤ nn.Data.length) (hmem : (nn.Data.length : Int) + n < 2 ^ 63) :
    ∃ data : List Nat,
      NewsNode.Read nn n off = (nn, .ok (data, OK)) ∧
      data = (nn.Data.take (min (off.toNat + n) nn.Data.length)).drop off.toNat ∧
      data.length = min n (nn.Data.length - off.toNat) ∧
      ∀ j, j < data.length → data[j]? = nn.Data[off.toNat + j]? := by
  refine ⟨(nn.Data.take (min (off.toNat + n) nn.Data.length)).drop off.toNat,
    NewsNode_Read_eq nn n off h0 h1 hmem, rfl, ?_, ?_⟩
  · simp only [List.length_drop, List.length_take]
    omega
  · intro j hj
    simp only [List.length_drop, List.length_take] at hj
    rw [List.getElem?_drop, List.getElem?_take]
    rw [if_pos (by omega)]

/-- Witness of C4: content `hello`, offset 2, a buffer of 4 bytes. -/
theorem NewsNode_Read_subrange_witness :
    ∃ data : List Nat,
      NewsNode.Read { Ino := 1, Filename := str "A.html", Timestamp := 0, Data := str "hello" } 4 2
        = ({ Ino := 1, Filename := str "A.html", Timestamp := 0, Data := str "hello" },
           .ok (data, OK)) ∧
      data = ((str "hello").take (min ((2 : Int).toNat + 4) (str "hello").length)).drop
        (2 : Int).toNat ∧
      data.length = min 4 ((str "hello").length - (2 : Int).toNat) ∧
      ∀ j, j < data.length → data[j]? = (str "hello")[(2 : Int).toNat + j]? :=
  NewsNode_Read_subrange
    { Ino := 1, Filename := str "A.html", Timestamp := 0, Data := str "hello" } 4 2
    (by decide) (by decide) (by decide)

/-! ## Attributes -/

/-- C7, as the claim states it, fails: the mode `Getattr` gives a container is
the directory type with permission bits 0755, which has the owner write bit and
is not 0555; the mode it gives an item is the regular-file type with 0644,
which is not 0444. -/
theorem Getattr_mode_has_owner_write_bit :
    GenericNode.Getattr (envOfTitles "HN" []) { Ino := 7, Filename := str "Tech", Timestamp := 3 }
        zeroAttr
      = .ok ({ Ino := 7, Size := 0, Atime := 3, Mtime := 3, Ctime := 3, Mode := 0o040755,
               Uid := 1000, Gid := 1000 }, OK) ∧
    (0o040755 : Nat) ≠ S_IFDIR ||| 0o555 ∧
    (0o040755 : Nat) &&& 0o200 = 0o200 ∧
    NewsNode.Getattr (envOfTitles "HN" []) oldNews zeroAttr
      = .ok ({ Ino := 11, Size := 3, Atime := 0, Mtime := 0, Ctime := 0, Mode := 0o100644,
               Uid := 1000, Gid := 1000 }, OK) ∧
    (0o100644 : Nat) ≠ S_IFREG ||| 0o444 ∧
    (0o100644 : Nat) &&& 0o200 = 0o200 := by
  decide

/-- C7, amended: when the lookup of the current user succeeds, `Getattr` on a
container node (Root, Category, Feed) returns OK with size 0 and the mode
directory type with permission bits 0755 (read, write and execute for the
owner, read and execute for group and other); on an item node it returns OK
with size the byte length of `Data` and the mode regular-file type with
permission bits 0644 (read and write for the owner, read for group and other);
in both cases the inode number is the `Ino` of the node. -/
theorem Getattr_size_mode_ino (env : Env) (user : User) (out : Attr)
    (hu : env.current = .ok user) :
    (∀ r : RootNode, ∃ a, r.Getattr env out = .ok (a, OK) ∧ a.Size = 0 ∧
      a.Mode = S_IFDIR ||| 0o755 ∧ a.Mode &&& S_IFMT = S_IFDIR ∧ a.Ino = r.Ino) ∧
    (∀ cn : CategoryNode, ∃ a, cn.Getattr env out = .ok (a, OK) ∧ a.Size = 0 ∧
      a.Mode = S_IFDIR ||| 0o755 ∧ a.Mode &&& S_IFMT = S_IFDIR ∧ a.Ino = cn.Ino) ∧
    (∀ fn : FeedNode, ∃ a, fn.Getattr env out = .ok (a, OK) ∧ a.Size = 0 ∧
      a.Mode = S_IFDIR ||| 0o755 ∧ a.Mode &&& S_IFMT = S_IFDIR ∧ a.Ino = fn.Ino) ∧
    (∀ nn : NewsNode, ∃ a, nn.Getattr env out = .ok (a, OK) ∧ a.Size = nn.Data.length ∧
      a.Mode = S_IFREG ||| 0o644 ∧ a.Mode &&& S_IFMT = S_IFREG ∧ a.Ino = nn.Ino) := by
  have hgen : ∀ gn : GenericNode, ∃ a, gn.Getattr env out = .ok (a, OK) ∧ a.Size = 0 ∧
      a.Mode = S_IFDIR ||| 0o755 ∧ a.Mode &&& S_IFMT = S_IFDIR ∧ a.Ino = gn.Ino := by
    intro gn
    have hd : (0o755 ||| S_IFDIR) &&& S_IFMT = S_IFDIR := by decide
    simp only [GenericNode.Getattr, setAttributes, hu, die]
    exact ⟨_, rfl, rfl, rfl, hd, rfl⟩
  refine ⟨fun r => hgen r.toGenericNode, fun cn => hgen cn.toGenericNode,
    fun fn => hgen fn.toGenericNode, ?_⟩
  intro nn
  have hr : (0o644 ||| S_IFREG) &&& S_IFMT = S_IFREG := by decide
  simp only [NewsNode.Getattr, setAttributes, hu, die]
  exact ⟨_, rfl, rfl, rfl, hr, rfl⟩

/-- Witness of C7, amended: an environment whose user lookup succeeds. -/
theorem Getattr_size_mode_ino_witness :
    (envOfTitles "HN" []).current = .ok { Uid := str "1000", Gid := str "1000" } ∧
    ∀ nn : NewsNode, ∃ a, nn.Getattr (envOfTitles "HN" []) zeroAttr = .ok (a, OK) ∧
      a.Size = nn.Data.length ∧ a.Mode = S_IFREG ||| 0o644 ∧ a.Mode &&& S_IFMT = S_IFREG ∧
      a.Ino = nn.Ino :=
  ⟨rfl, (Getattr_size_mode_ino (envOfTitles "HN" []) { Uid := str "1000", Gid := str "1000" }
    zeroAttr rfl).2.2.2⟩

/-! ## Collision resolution -/

/-- C1, at a failing input: for the titles `A, A, A, B` the names `GetFeedFiles`
gives are `A.html, A [1].html, A.html, B.html`; the third item of the run is
named as the first, not `A [2].html`. -/
theorem GetFeedFiles_third_of_run_unsuffixed :
    feedFileNames (envOfTitles "HN" ["A", "A", "A", "B"]) (str "http://x/feed")
      = .ok [str "A.html", str "A [1].html", str "A.html", str "B.html"] ∧
    feedFileNames (envOfTitles "HN" ["A", "A", "A", "B"]) (str "http://x/feed")
      ≠ .ok [str "A.html", str "A [1].html", str "A [2].html", str "B.html"] := by
  decide

/-- C2, at a failing input: three items titled `Post` get the file names
`Post.html, Post [1].html, Post.html`, which are not pairwise distinct; the
listing returns three entries while the `News` collection of the feed holds two
children, and a lookup of `Post.html` finds the third item, not the first. -/
theorem GetFeedFiles_names_repeat :
    feedFileNames
        (envOfItems "HN" [itemOf "Post" "one", itemOf "Post" "two", itemOf "Post" "three"])
        (str "http://x/feed")
      = .ok [str "Post.html", str "Post [1].html", str "Post.html"] ∧
    ¬ [str "Post.html", str "Post [1].html", str "Post.html"].Nodup ∧
    (FeedNode.readdir
        (envOfItems "HN" [itemOf "Post" "one", itemOf "Post" "two", itemOf "Post" "three"])
        feedHN).2.map List.length = .ok 3 ∧
    (FeedNode.readdir
        (envOfItems "HN" [itemOf "Post" "one", itemOf "Post" "two", itemOf "Post" "three"])
        feedHN).1.News.map Prod.fst = [str "Post.html", str "Post [1].html"] ∧
    ((FeedNode.readdir
        (envOfItems "HN" [itemOf "Post" "one", itemOf "Post" "two", itemOf "Post" "three"])
        feedHN).1.News.Load (str "Post.html")).map (fun n => n.Data)
      = some (GenerateOutputData (envOfItems "HN" []) (itemOf "Post" "three")).2 := by
  decide

/-! ## The tree builder -/

/-- C9, at a failing input: a category with two configured feeds whose fetched
titles are both `HN` gets one feed child, whichever worker delivers first (the
node delivered last replaces the other); a root built from two categories both
named `Tech` gets one category child. -/
theorem getCategoryNode_equal_titles_one_child :
    catTech.Feeds.length = 2 ∧
    (getCategoryNode (envOfTitles "HN" []) catTech
        [{ URL := str "http://x/feed" }, { URL := str "http://y/feed" }]).map
      (fun cn => cn.Feeds.map (fun e => (e.1, e.2.URL)))
      = .ok [(str "HN", str "http://y/feed")] ∧
    (getCategoryNode (envOfTitles "HN" []) catTech
        [{ URL := str "http://y/feed" }, { URL := str "http://x/feed" }]).map
      (fun cn => cn.Feeds.map (fun e => (e.1, e.2.URL)))
      = .ok [(str "HN", str "http://x/feed")] ∧
    (getRootNode (envOfTitles "HN" [])
        [({ Name := str "Tech", Feeds := [{ URL := str "http://x/feed" }] },
            [{ URL := str "http://x/feed" }]),
         ({ Name := str "Tech", Feeds := [{ URL := str "http://y/feed" }] },
            [{ URL := str "http://y/feed" }])]).map
      (fun root => root.Cats.map Prod.fst)
      = .ok [str "Tech"] := by
  decide

/-! ## A failed fetch -/

/-- C10, as the claim states it, fails: when the parser fails, `Readdir` on the
feed does not return the status EIO, nor any status: it ends in the panic of
`die`, and the `News` collection of the feed, which held one child, is empty. -/
theorem FeedNode_Readdir_fetch_error_panics :
    (FeedNode.Readdir envFetchFails feedHN).2 = .error (Panic.die (str "no such host")) ∧
    (∀ entries : List DirEntry, (FeedNode.Readdir envFetchFails feedHN).2 ≠ .ok (entries, EIO)) ∧
    feedHN.News = [(str "Old.html", oldNews)] ∧
    (FeedNode.Readdir envFetchFails feedHN).1.News = [] := by
  refine ⟨by decide, ?_, by decide, by decide⟩
  intro entries h
  have hp : (FeedNode.Readdir envFetchFails feedHN).2 = .error (Panic.die (str "no such host")) := by
    decide
  rw [hp] at h
  exact Except.noConfusion h

theorem SyncMap_Load_Store_self {α : Type} (m : SyncMap α) (k : GoString) (v : α) :
    (m.Store k v).Load k = some v := by
  induction m with
  | nil => simp [SyncMap.Store, SyncMap.Load]
  | cons e rest ih =>
    obtain ⟨k0, v0⟩ := e
    by_cases h : k0 = k
    · simp [SyncMap.Store, SyncMap.Load, h]
    · simp [SyncMap.Store, SyncMap.Load, h, ih]

theorem SyncMap_Load_Store_of_ne {α : Type} (m : SyncMap α) (k k2 : GoString) (v : α)
    (hne : k2 ≠ k) : (m.Store k v).Load k2 = m.Load k2 := by
  induction m with
  | nil =>
    have hne2 : ¬ k = k2 := fun h => hne h.symm
    simp [SyncMap.Store, SyncMap.Load, hne2]
  | cons e rest ih =>
    obtain ⟨k0, v0⟩ := e
    by_cases h : k0 = k
    · subst h
      have hne2 : ¬ k0 = k2 := fun h => hne h.symm
      simp [SyncMap.Store, SyncMap.Load, hne2]
    · by_cases h2 : k0 = k2
      · subst h2
        simp [SyncMap.Store, SyncMap.Load, h]
      · simp [SyncMap.Store, SyncMap.Load, h, h2, ih]

theorem SyncMap_keys_Store_of_Load {α : Type} (m : SyncMap α) (k : GoString) (v w : α)
    (hload : m.Load k = some w) : (m.Store k v).map Prod.fst = m.map Prod.fst := by
  induction m with
  | nil => simp [SyncMap.Load] at hload
  | cons e rest ih =>
    obtain ⟨k0, v0⟩ := e
    by_cases h : k0 = k
    · simp [SyncMap.Store, h]
    · have hrest : SyncMap.Load rest k = some w := by
        simpa [SyncMap.Load, h] using hload
      simp [SyncMap.Store, h, ih hrest]

/-- C10, amended: if the feed parser returns an error during `FeedNode.Readdir` on
a feed node of the tree, the call returns neither an entry list nor a status:
its outcome, for its caller, is the panic of `die` with that error. When the
panic is raised the tree differs from the tree before the call only in the
`News` collection of that feed node, which is empty: the feed node keeps its
`Ino`, `Filename`, `Timestamp` and `URL`; its category keeps its own
attributes, its feed names and every other feed; the root keeps its own
attributes, its category names and every other category. -/
theorem FeedNode_Readdir_fetch_error (env : Env) (root : RootNode) (cat feed : GoString)
    (cn : CategoryNode) (fn : FeedNode) (err : GoError)
    (hcat : root.Cats.Load cat = some cn) (hfeed : cn.Feeds.Load feed = some fn)
    (herr : env.ParseURL fn.URL = .error err) :
    (FeedNode.Readdir env fn).2 = .error (Panic.die err) ∧
    (FeedNode.Readdir env fn).1 = { fn with News := [] } ∧
    (FeedNode.Readdir env fn).1.Ino = fn.Ino ∧
    (FeedNode.Readdir env fn).1.Filename = fn.Filename ∧
    (FeedNode.Readdir env fn).1.Timestamp = fn.Timestamp ∧
    (FeedNode.Readdir env fn).1.URL = fn.URL ∧
    (RootNode.ReaddirFeed env root cat feed).2 = some (.error (Panic.die err)) ∧
    (RootNode.ReaddirFeed env root cat feed).1.toGenericNode = root.toGenericNode ∧
    (RootNode.ReaddirFeed env root cat feed).1.Cats.map Prod.fst = root.Cats.map Prod.fst ∧
    (∀ cat2, cat2 ≠ cat →
      (RootNode.ReaddirFeed env root cat feed).1.Cats.Load cat2 = root.Cats.Load cat2) ∧
    (∃ cn1, (RootNode.ReaddirFeed env root cat feed).1.Cats.Load cat = some cn1 ∧
      cn1.toGenericNode = cn.toGenericNode ∧
      cn1.Feeds.map Prod.fst = cn.Feeds.map Prod.fst ∧
      (∀ feed2, feed2 ≠ feed → cn1.Feeds.Load feed2 = cn.Feeds.Load feed2) ∧
      cn1.Feeds.Load feed = some { fn with News := [] }) := by
  have h : FeedNode.Readdir env fn = ({ fn with News := [] }, .error (Panic.die err)) := by
    simp only [FeedNode.Readdir, FeedNode.readdir, GetFeedFiles, getFeedData, herr, die]
  have htree : RootNode.ReaddirFeed env root cat feed
      = (({ root with
            Cats := root.Cats.Store cat
              ({ cn with
                  Feeds := cn.Feeds.Store feed ({ fn with News := [] } : FeedNode) } :
                CategoryNode) } : RootNode),
         some (.error (Panic.die err))) := by
    simp only [RootNode.ReaddirFeed, hcat, hfeed, h]
  rw [h, htree]
  refine ⟨rfl, rfl, rfl, rfl, rfl, rfl, rfl, rfl, ?_, ?_, ?_⟩
  · exact SyncMap_keys_Store_of_Load root.Cats cat _ cn hcat
  · intro cat2 hne
    exact SyncMap_Load_Store_of_ne root.Cats cat cat2 _ hne
  · refine ⟨_, SyncMap_Load_Store_self root.Cats cat _, rfl, ?_, ?_, ?_⟩
    · exact SyncMap_keys_Store_of_Load cn.Feeds feed _ fn hfeed
    · intro feed2 hne
      exact SyncMap_Load_Store_of_ne cn.Feeds feed feed2 _ hne
    · exact SyncMap_Load_Store_self cn.Feeds feed _

/-- Witness of C10, amended: the parser that fails on every URL, and the feed
`HN` of the category `Tech` in a tree of two categories. -/
theorem FeedNode_Readdir_fetch_error_witness :
    rootTwoCats.Cats.Load (str "Tech") = some catNodeTech ∧
    catNodeTech.Feeds.Load (str "HN") = some feedHN ∧
    envFetchFails.ParseURL feedHN.URL = .error (str "no such host") ∧
    (FeedNode.Readdir envFetchFails feedHN).2 = .error (Panic.die (str "no such host")) ∧
    (FeedNode.Readdir envFetchFails feedHN).1 = { feedHN with News := [] } ∧
    (RootNode.ReaddirFeed envFetchFails rootTwoCats (str "Tech") (str "HN")).2
      = some (.error (Panic.die (str "no such host"))) ∧
    (RootNode.ReaddirFeed envFetchFails rootTwoCats (str "Tech") (str "HN")).1.Cats.map Prod.fst
      = rootTwoCats.Cats.map Prod.fst :=
  have h := FeedNode_Readdir_fetch_error envFetchFails rootTwoCats (str "Tech") (str "HN")
    catNodeTech feedHN (str "no such host") (by decide) (by decide) rfl
  ⟨by decide, by decide, rfl, h.1, h.2.1, h.2.2.2.2.2.2.1, h.2.2.2.2.2.2.2.2.1⟩

/-! ## The refresh of a feed -/

theorem readdirRun_returned (env : Env) (k : Nat) (fn : FeedNode) (ret : List Node) :
    FeedNode.readdirRun env k { fn := fn, pc := .returned ret }
      = { fn := fn, pc := .returned ret } := by
  induction k with
  | zero => rfl
  | succ k ih => simpa [FeedNode.readdirRun, FeedNode.readdirStep] using ih

theorem readdirRun_panicked (env : Env) (k : Nat) (fn : FeedNode) (p : Panic) :
    FeedNode.readdirRun env k { fn := fn, pc := .panicked p }
      = { fn := fn, pc := .panicked p } := by
  induction k with
  | zero => rfl
  | succ k ih => simpa [FeedNode.readdirRun, FeedNode.readdirStep] using ih

theorem ofNews_take_succ (feeds : List NewsNode) (i : Nat) (h : i < feeds.length) :
    SyncMap.ofNews (feeds.take (i + 1))
      = (SyncMap.ofNews (feeds.take i)).Store feeds[i].Filename feeds[i] := by
  unfold SyncMap.ofNews
  rw [List.take_succ, List.foldl_append, List.getElem?_eq_getElem h]
  rfl

theorem readdirRun_store (env : Env) (feeds : List NewsNode) :
    ∀ (j i : Nat) (fn : FeedNode) (ret : List Node),
      fn.News = SyncMap.ofNews (feeds.take i) →
      (FeedNode.readdirRun env j { fn := fn, pc := .store feeds i ret }).fn.News
        = SyncMap.ofNews (feeds.take (i + j)) := by
  intro j
  induction j with
  | zero => intro i fn ret h; simpa [FeedNode.readdirRun] using h
  | succ j ih =>
    intro i fn ret h
    by_cases hi : i < feeds.length
    · have hstep : FeedNode.readdirStep env { fn := fn, pc := .store feeds i ret }
          = { fn := { fn with News := fn.News.Store feeds[i].Filename feeds[i] }
              pc := .store feeds (i + 1) (ret ++ [Node.news feeds[i]]) } := by
        simp [FeedNode.readdirStep, hi]
      rw [FeedNode.readdirRun, hstep, ih (i + 1) _ _ (by rw [ofNews_take_succ feeds i hi, ← h])]
      congr 2
      omega
    · have hstep : FeedNode.readdirStep env { fn := fn, pc := .store feeds i ret }
          = { fn := fn, pc := .returned ret } := by
        simp [FeedNode.readdirStep, hi]
      rw [FeedNode.readdirRun, hstep, readdirRun_returned, h,
        List.take_of_length_le (by omega), List.take_of_length_le (by omega)]

theorem readdir_body_fst (feeds : List NewsNode) (acc : SyncMap NewsNode × List Node) :
    (feeds.foldl FeedNode.readdir.body acc).1
      = feeds.foldl (fun m n => m.Store n.Filename n) acc.1 := by
  induction feeds generalizing acc with
  | nil => rfl
  | cons f rest ih => rw [List.foldl_cons, ih, List.foldl_cons]; rfl

/-- C8, as the claim states it, fails: while the feed `HN`, which holds the child
`Old.html`, is refreshed to the children `A.html` and `B.html`, the collection
found after the first statement is empty and the one found after the first
store holds `A.html` alone; each is neither the old nor the new child set, and
a lookup then finds neither `Old.html` nor `B.html`. -/
theorem FeedNode_readdir_exposes_partial_collection :
    FeedNode.observedNews (envOfTitles "HN" ["A", "B"]) feedHN 0 = feedHN.News ∧
    feedHN.News.map Prod.fst = [str "Old.html"] ∧
    (FeedNode.readdir (envOfTitles "HN" ["A", "B"]) feedHN).1.News.map Prod.fst
      = [str "A.html", str "B.html"] ∧
    FeedNode.observedNews (envOfTitles "HN" ["A", "B"]) feedHN 1 = [] ∧
    (FeedNode.observedNews (envOfTitles "HN" ["A", "B"]) feedHN 3).map Prod.fst
      = [str "A.html"] ∧
    (FeedNode.lookup
      { feedHN with News := FeedNode.observedNews (envOfTitles "HN" ["A", "B"]) feedHN 3 }
      (str "Old.html")).2 = false ∧
    (FeedNode.lookup
      { feedHN with News := FeedNode.observedNews (envOfTitles "HN" ["A", "B"]) feedHN 3 }
      (str "B.html")).2 = false ∧
    ¬ (∀ k : Nat,
        FeedNode.observedNews (envOfTitles "HN" ["A", "B"]) feedHN k = feedHN.News ∨
        FeedNode.observedNews (envOfTitles "HN" ["A", "B"]) feedHN k
          = (FeedNode.readdir (envOfTitles "HN" ["A", "B"]) feedHN).1.News) := by
  refine ⟨by decide, by decide, by decide, by decide, by decide, by decide, by decide, ?_⟩
  intro hall
  have h1 := hall 1
  revert h1
  decide

theorem readdirInterleaved_first_only (env : Env) (k : Nat) (s : ReaddirPair) :
    (FeedNode.readdirInterleaved env (List.replicate k true) s).fn
        = (FeedNode.readdirRun env k { fn := s.fn, pc := s.first }).fn ∧
    (FeedNode.readdirInterleaved env (List.replicate k true) s).first
        = (FeedNode.readdirRun env k { fn := s.fn, pc := s.first }).pc ∧
    (FeedNode.readdirInterleaved env (List.replicate k true) s).second = s.second := by
  induction k generalizing s with
  | zero => exact ⟨rfl, rfl, rfl⟩
  | succ k ih =>
    rw [List.replicate_succ, FeedNode.readdirInterleaved, FeedNode.readdirRun]
    exact ih (FeedNode.readdirStepOf env true s)

/-- C8, amended: `FeedNode.readdir` first installs a fresh empty collection in the
shared slot and then stores the new children one at a time, in list order,
into the collection the slot holds. While one refresh runs and no other call
writes the collection, a reader such as `FeedNode.lookup` finds the old
collection before the first statement; after `k+1` statements it finds the
collection built from the first `k-1` new children (empty for k = 0 and
k = 1, and empty for good when the fetch panics), and once all the children
are stored the complete new set, the collection the call leaves behind. A
concurrent listing of the same feed is a `readdir` of its own on the same
slot: with the statements of two listings of the feed `HN` (new children
`A.html` and `B.html`) interleaved as first, first, first, second, first,
first, the first listing has returned both children while the collection holds
`B.html` alone, and a lookup of `A.html` finds nothing. -/
theorem FeedNode_readdir_observed_prefix (env : Env) (fn : FeedNode) (k : Nat) :
    FeedNode.observedNews env fn 0 = fn.News ∧
    FeedNode.observedNews env fn (k + 1)
      = (match GetFeedFiles env fn.URL with
         | .ok feeds => SyncMap.ofNews (feeds.take (k - 1))
         | .error _ => []) ∧
    (FeedNode.readdir env fn).1.News
      = (match GetFeedFiles env fn.URL with
         | .ok feeds => SyncMap.ofNews feeds
         | .error _ => []) ∧
    (∀ feeds, GetFeedFiles env fn.URL = .ok feeds → feeds.length + 1 ≤ k →
      FeedNode.observedNews env fn (k + 1) = (FeedNode.readdir env fn).1.News) ∧
    (FeedNode.readdirInterleaved (envOfTitles "HN" ["A", "B"])
        [true, true, true, false, true, true]
        { fn := feedHN, first := .entry, second := .entry }).first.returnedNames
      = some [str "A.html", str "B.html"] ∧
    (FeedNode.readdirInterleaved (envOfTitles "HN" ["A", "B"])
        [true, true, true, false, true, true]
        { fn := feedHN, first := .entry, second := .entry }).fn.News.map Prod.fst
      = [str "B.html"] ∧
    (FeedNode.lookup
        (FeedNode.readdirInterleaved (envOfTitles "HN" ["A", "B"])
          [true, true, true, false, true, true]
          { fn := feedHN, first := .entry, second := .entry }).fn
        (str "A.html")).2 = false := by
  have hbig : (FeedNode.readdir env fn).1.News
      = (match GetFeedFiles env fn.URL with
         | .ok feeds => SyncMap.ofNews feeds
         | .error _ => []) := by
    unfold FeedNode.readdir
    simp only []
    cases hg : GetFeedFiles env fn.URL with
    | error p => rfl
    | ok feeds =>
      simp only []
      rw [readdir_body_fst]
      rfl
  have hobs : FeedNode.observedNews env fn (k + 1)
      = (match GetFeedFiles env fn.URL with
         | .ok feeds => SyncMap.ofNews (feeds.take (k - 1))
         | .error _ => []) := ?_
  · refine ⟨rfl, hobs, hbig, ?_, by decide, by decide, by decide⟩
    intro feeds hg hk
    rw [hobs, hbig, hg]
    simp only []
    rw [List.take_of_length_le (by omega)]
  · unfold FeedNode.observedNews
    rw [FeedNode.readdirRun]
    have hentry : FeedNode.readdirStep env { fn := fn, pc := .entry }
        = { fn := { fn with News := [] }, pc := .fetch } := rfl
    rw [hentry]
    cases k with
    | zero => cases hg : GetFeedFiles env fn.URL <;> rfl
    | succ k =>
      rw [FeedNode.readdirRun]
      cases hg : GetFeedFiles env fn.URL with
      | error p =>
        have hstep : FeedNode.readdirStep env { fn := { fn with News := [] }, pc := .fetch }
            = { fn := { fn with News := [] }, pc := .panicked p } := by
          simp [FeedNode.readdirStep, hg]
        rw [hstep, readdirRun_panicked]
      | ok feeds =>
        have hstep : FeedNode.readdirStep env { fn := { fn with News := [] }, pc := .fetch }
            = { fn := { fn with News := [] }, pc := .store feeds 0 [] } := by
          simp [FeedNode.readdirStep, hg]
        rw [hstep, readdirRun_store env feeds k 0 _ _ rfl]
        simp

/-! ## Checks of the model on concrete inputs -/

theorem fileNameClean_examples :
    fileNameClean (str "  a/b:c  ") = str "a-b-c" ∧
    fileNameClean [0x20, 0xC2, 0xA0, 0x41, 0xE3, 0x80, 0x80, 0x20] = [0x41] ∧
    fileNameClean [0x20, 0xC2, 0xA0, 0x41, 0xE3, 0x80, 0x20] = [0x41, 0xE3, 0x80] ∧
    fileNameClean [0x20, 0xC3, 0xA9, 0x20, 0x0A] = [0xC3, 0xA9] := by
  decide

theorem fileNameClean_blank_title :
    fileNameClean (str " ") = [] ∧ fileNameClean (str " \t ") = [] := by
  decide

set_option maxRecDepth 100000 in
theorem fileNameClean_replicate_256 :
    (fileNameClean (List.replicate 256 0x61)).length = 256 ∧
    (fileNameClean (List.replicate 257 0x61)).length = 200 := by
  decide

theorem getInode_examples :
    getInode (str "") = 0xcbf29ce484222325 ∧ getInode (str "a") = 0xaf63bd4c8601b7be := by
  decide

theorem GetFeedFiles_two_posts :
    feedFileNames (envOfTitles "HN" ["Post", "Post"]) (str "http://x/feed")
      = .ok [str "Post.html", str "Post [1].html"] := by
  decide

theorem GetFeedFiles_empty_title :
    feedFileNames (envOfTitles "HN" ["B", "A", "A", "", "A"]) (str "http://x/feed")
      = .ok [str " [1].html", str "A.html", str "A [1].html", str "A.html", str "B.html"] := by
  decide

end Rssfs
